import Mathlib

/-!
Shallow embedding of the lox-int scanner (src/scanner.js, src/token.js,
src/lox-error.js).  The source text is a list of characters (the JS
constructor splits the input string into a character array).  The scanner
state carries the token list, the `start`/`current` cursor, the line
counter and the accumulated error reports (modelling the fire-and-forget
lox_error notifications in emission order).

The number finite-state machine of Scanner.#number can fail to terminate
(its loop guard only tests the END state, and the FAILURE state has no
branch in the body), so the scanning loops that can run it are modelled
with an explicit step budget (fuel): a result of `none` means no budget
suffices, i.e. the JavaScript loop diverges.  The string and comment
loops advance the cursor on every iteration, so a budget of
`src.length - current` steps is exact for them.
-/

namespace Lox

/-- Named quote character (code 34), the string delimiter of scanner.js. -/
def dquote : Char := Char.ofNat 34

/-- Named apostrophe character (code 39), used by the Unexpected-character
message of Scanner.#scan_token. -/
def squote : Char := Char.ofNat 39

/-- Character classifier `is_digit` of scanner.js: true iff the character
is in the range 0-9. -/
def is_digit (ch : Char) : Bool :=
  decide ('0' ≤ ch ∧ ch ≤ '9')

/-- Lift of `is_digit` to the optional character returned by peeking: the
JS peek sentinel (the empty string, modelled as `none`) is not a digit. -/
def is_digit_opt : Option Char → Bool
  | some c => is_digit c
  | none => false

/-- Scanner.#peek and direct indexing `source[current]`: the character at
`current`, or `none` for the out-of-range sentinel. -/
def peekCh (src : List Char) (current : Nat) : Option Char :=
  src.get? current

/-- The `literal` field of a Token: the default empty object, a string
literal's contents, or a parsed number (none modelling NaN). -/
inductive Literal where
  | empty : Literal
  | str (s : String) : Literal
  | num (q : Option ℚ) : Literal
deriving DecidableEq

/-- The Token class of token.js. -/
structure Token where
  token_type : Int
  lexeme : String
  literal : Literal
  line : Nat
deriving DecidableEq

namespace token_types

def UNKNOWN : Int := -1
def LEFT_PAREN : Int := 0
def RIGHT_PAREN : Int := 1
def LEFT_BRACE : Int := 2
def RIGHT_BRACE : Int := 3
def COMMA : Int := 4
def DOT : Int := 5
def MINUS : Int := 6
def PLUS : Int := 7
def SEMICOLON : Int := 8
def SLASH : Int := 9
def STAR : Int := 10
def BANG : Int := 11
def BANG_EQUAL : Int := 12
def EQUAL : Int := 13
def DOUBLE_EQUAL : Int := 14
def GREATER : Int := 15
def GREATER_EQUAL : Int := 16
def LESS : Int := 17
def LESS_EQUAL : Int := 18
def IDENTIFIER : Int := 19
def STRING : Int := 20
def NUMBER : Int := 21
def EQUAL_EQUAL : Int := 39
def AND : Int := 22
def CLASS : Int := 23
def ELSE : Int := 24
def FALSE : Int := 25
def FUN : Int := 26
def FOR : Int := 27
def IF : Int := 28
def NIL : Int := 29
def OR : Int := 30
def PRINT : Int := 31
def RETURN : Int := 32
def SUPER : Int := 33
def THIS : Int := 34
def TRUE : Int := 35
def VAR : Int := 36
def WHILE : Int := 37
def EOF : Int := 38

end token_types

/-- The frozen `token_types` object of token.js as the ordered list of its
(name, value) entries, exactly as written in the source. -/
def token_types_entries : List (String × Int) :=
  [("UNKNOWN", token_types.UNKNOWN),
   ("LEFT_PAREN", token_types.LEFT_PAREN),
   ("RIGHT_PAREN", token_types.RIGHT_PAREN),
   ("LEFT_BRACE", token_types.LEFT_BRACE),
   ("RIGHT_BRACE", token_types.RIGHT_BRACE),
   ("COMMA", token_types.COMMA),
   ("DOT", token_types.DOT),
   ("MINUS", token_types.MINUS),
   ("PLUS", token_types.PLUS),
   ("SEMICOLON", token_types.SEMICOLON),
   ("SLASH", token_types.SLASH),
   ("STAR", token_types.STAR),
   ("BANG", token_types.BANG),
   ("BANG_EQUAL", token_types.BANG_EQUAL),
   ("EQUAL", token_types.EQUAL),
   ("DOUBLE_EQUAL", token_types.DOUBLE_EQUAL),
   ("GREATER", token_types.GREATER),
   ("GREATER_EQUAL", token_types.GREATER_EQUAL),
   ("LESS", token_types.LESS),
   ("LESS_EQUAL", token_types.LESS_EQUAL),
   ("IDENTIFIER", token_types.IDENTIFIER),
   ("STRING", token_types.STRING),
   ("NUMBER", token_types.NUMBER),
   ("EQUAL_EQUAL", token_types.EQUAL_EQUAL),
   ("AND", token_types.AND),
   ("CLASS", token_types.CLASS),
   ("ELSE", token_types.ELSE),
   ("FALSE", token_types.FALSE),
   ("FUN", token_types.FUN),
   ("FOR", token_types.FOR),
   ("IF", token_types.IF),
   ("NIL", token_types.NIL),
   ("OR", token_types.OR),
   ("PRINT", token_types.PRINT),
   ("RETURN", token_types.RETURN),
   ("SUPER", token_types.SUPER),
   ("THIS", token_types.THIS),
   ("TRUE", token_types.TRUE),
   ("VAR", token_types.VAR),
   ("WHILE", token_types.WHILE),
   ("EOF", token_types.EOF)]

/-- Leading run of decimal digits of a character list, and the rest. -/
def spanDigits (cs : List Char) : List Char × List Char :=
  (cs.takeWhile is_digit, cs.dropWhile is_digit)

/-- Natural number denoted by a list of decimal digits. -/
def digitsVal (cs : List Char) : Nat :=
  cs.foldl (fun a c => a * 10 + (c.toNat - 48)) 0

/-- Model of the JavaScript builtin Number.parseFloat over the rationals
with exact decimal semantics: after optional leading whitespace, the
longest prefix of the form sign? (digits fraction? | fraction) exponent?
is converted; `none` models NaN (no convertible prefix).  An exponent
part only counts when at least one digit follows the marker and optional
sign, as in JS. -/
def parseFloatQ (s : String) : Option ℚ :=
  let cs := s.toList.dropWhile (fun c => c = ' ' ∨ c = '\t' ∨ c = '\n' ∨ c = '\r')
  let sgncs : ℚ × List Char :=
    match cs with
    | '-' :: rest => (-1, rest)
    | '+' :: rest => (1, rest)
    | _ => (1, cs)
  let ipr := spanDigits sgncs.2
  let fpr : List Char × List Char :=
    match ipr.2 with
    | '.' :: rest => spanDigits rest
    | _ => ([], ipr.2)
  if ipr.1.isEmpty ∧ fpr.1.isEmpty then none
  else
    let mant : ℚ := (digitsVal ipr.1 : ℚ) + (digitsVal fpr.1 : ℚ) / (10 : ℚ) ^ fpr.1.length
    let value : ℚ :=
      match fpr.2 with
      | c :: rest =>
        if c = 'e' ∨ c = 'E' then
          let erest : Bool × List Char :=
            match rest with
            | '-' :: r => (true, r)
            | '+' :: r => (false, r)
            | _ => (false, rest)
          let ed := (spanDigits erest.2).1
          if ed.isEmpty then mant
          else if erest.1 then mant / (10 : ℚ) ^ digitsVal ed
          else mant * (10 : ℚ) ^ digitsVal ed
        else mant
      | [] => mant
    some (sgncs.1 * value)

/-- Mutable state of a Scanner instance: token list, token start index,
cursor, line counter, and the error reports raised so far. -/
structure ScanState where
  tokens : List Token
  start : Nat
  current : Nat
  line : Nat
  errors : List (Nat × String)
deriving DecidableEq

/-- Fresh Scanner state: no tokens, both cursors at 0, line 1. -/
def initState : ScanState := ⟨[], 0, 0, 1, []⟩

/-- The lox_error notification: records (line, message) and continues. -/
def lox_error (s : ScanState) (message : String) : ScanState :=
  { s with errors := s.errors ++ [(s.line, message)] }

/-- The Unexpected-character message of Scanner.#scan_token: an opening
apostrophe, the character, and no closing quote, exactly as the JS
template string produces. -/
def unexpected_message (c : Char) : String :=
  "Unexpected character " ++ String.mk [squote, c]

/-- The Unexpected-character message produced when advance returns the
out-of-range sentinel (JS interpolates undefined). -/
def unexpected_undefined : String :=
  "Unexpected character " ++ String.mk [squote] ++ "undefined"

/-- Scanner.#add_token: the lexeme is source.slice(start, current) and the
token records the line at emission time. -/
def add_token (src : List Char) (s : ScanState) (ttype : Int) (literal : Literal) : ScanState :=
  let text := String.mk ((src.drop s.start).take (s.current - s.start))
  { s with tokens := s.tokens ++ [⟨ttype, text, literal, s.line⟩] }

/-- Scanner.#match: consume the character at `current` iff not at end and
it equals the expected character; returns the flag and the new state. -/
def matchCh (src : List Char) (s : ScanState) (expected : Char) : Bool × ScanState :=
  if s.current < src.length ∧ peekCh src s.current = some expected then
    (true, { s with current := s.current + 1 })
  else (false, s)

/-- Body of the line-comment loop of Scanner.#scan_token (case the second
slash matched): advance while peek is not a newline and not at end.  The
loop advances once per iteration, so `src.length - current` iterations
always reach the guard failure; the wrapper commentLoop supplies exactly
that budget. -/
def commentLoopGo (src : List Char) : Nat → Nat → Nat
  | 0, current => current
  | fuel + 1, current =>
    if peekCh src current ≠ some '\n' ∧ current < src.length then
      commentLoopGo src fuel (current + 1)
    else current

/-- The line-comment loop: run commentLoopGo with its exact budget. -/
def commentLoop (src : List Char) (current : Nat) : Nat :=
  commentLoopGo src (src.length - current) current

/-- Body of the string-scanning loop of Scanner.#string: advance while
not at end and peek is not the closing quote, incrementing the line on
embedded newlines; returns the new cursor and line.  As with the comment
loop, `src.length - current` iterations always suffice. -/
def stringLoopGo (src : List Char) : Nat → Nat → Nat → Nat × Nat
  | 0, current, line => (current, line)
  | fuel + 1, current, line =>
    if current < src.length ∧ peekCh src current ≠ some dquote then
      stringLoopGo src fuel (current + 1)
        (if peekCh src current = some '\n' then line + 1 else line)
    else (current, line)

/-- The string-scanning loop: run stringLoopGo with its exact budget. -/
def stringLoop (src : List Char) (current line : Nat) : Nat × Nat :=
  stringLoopGo src (src.length - current) current line

/-- Scanner.#string, entered with the opening quote already consumed
(start at the quote, current one past it): after the loop, when
`current > start` the literal is source.slice(start+1, current), one more
advance steps past the closing quote, and a STRING token is emitted;
otherwise an unterminated-string report is raised. -/
def stringScan (src : List Char) (s : ScanState) : ScanState :=
  let p := stringLoop src s.current s.line
  let s1 : ScanState := { s with current := p.1, line := p.2 }
  if s1.start < s1.current then
    let value := String.mk ((src.drop (s1.start + 1)).take (s1.current - (s1.start + 1)))
    let s2 : ScanState := { s1 with current := s1.current + 1 }
    add_token src s2 token_types.STRING (Literal.str value)
  else lox_error s1 "unterminated string."

/-- States of the number finite-state machine of Scanner.#number,
mirroring the state_type magic integers. -/
inductive NumState where
  | before_sign
  | before_decimal
  | after_decimal
  | before_exp_sign
  | in_exp
  | at_end
  | failure
deriving DecidableEq

/-- One iteration of the body of the Scanner.#number while loop: peek the
current character and dispatch on the state.  Branches mirror the source
exactly; note that the sign branch out of before_sign does not check for
end of input after consuming, unlike every other consuming branch, and
that the body has no branch for at_end or failure (those leave the
configuration unchanged). -/
def numberStep (src : List Char) (state : NumState) (current : Nat) : NumState × Nat :=
  let ch := peekCh src current
  match state with
  | NumState.before_sign =>
    if ch = some '+' ∨ ch = some '-' then (NumState.before_decimal, current + 1)
    else if is_digit_opt ch then
      (if src.length ≤ current + 1 then NumState.at_end else NumState.before_decimal, current + 1)
    else if ch = some '.' then
      (if src.length ≤ current + 1 then NumState.at_end else NumState.after_decimal, current + 1)
    else (NumState.failure, current)
  | NumState.before_decimal =>
    if is_digit_opt ch then
      (if src.length ≤ current + 1 then NumState.at_end else NumState.before_decimal, current + 1)
    else if ch = some '.' then
      (if src.length ≤ current + 1 then NumState.at_end else NumState.after_decimal, current + 1)
    else (NumState.at_end, current)
  | NumState.after_decimal =>
    if is_digit_opt ch then
      (if src.length ≤ current + 1 then NumState.at_end else NumState.after_decimal, current + 1)
    else if ch = some 'e' ∨ ch = some 'E' then
      (if src.length ≤ current + 1 then NumState.at_end else NumState.before_exp_sign, current + 1)
    else (NumState.at_end, current)
  | NumState.before_exp_sign =>
    if (ch = some '-' ∨ ch = some '+') ∨ is_digit_opt ch then
      (if src.length ≤ current + 1 then NumState.at_end else NumState.in_exp, current + 1)
    else (NumState.at_end, current)
  | NumState.in_exp =>
    if is_digit_opt ch then
      (if src.length ≤ current + 1 then NumState.at_end else NumState.in_exp, current + 1)
    else (NumState.at_end, current)
  | NumState.at_end => (NumState.at_end, current)
  | NumState.failure => (NumState.failure, current)

/-- The while loop of Scanner.#number under a step budget: the guard
(not at end and state is not at_end) is re-checked before each step, and
`none` means the budget ran out with the guard still true. -/
def numberLoop (src : List Char) : Nat → NumState → Nat → Option (NumState × Nat)
  | 0, state, current =>
    if src.length ≤ current ∨ state = NumState.at_end then some (state, current) else none
  | fuel + 1, state, current =>
    if src.length ≤ current ∨ state = NumState.at_end then some (state, current)
    else numberLoop src fuel (numberStep src state current).1 (numberStep src state current).2

/-- Scanner.#number, entered with the first digit already consumed: run
the machine from before_sign; in at_end emit a NUMBER token whose value
is parseFloat of source.slice(start, current), otherwise raise the
invalid-number-format report. -/
def numberScan (src : List Char) (fuel : Nat) (s : ScanState) : Option ScanState :=
  match numberLoop src fuel NumState.before_sign s.current with
  | none => none
  | some (state, cur) =>
    let s1 : ScanState := { s with current := cur }
    if state = NumState.at_end then
      let value_str := String.mk ((src.drop s1.start).take (s1.current - s1.start))
      some (add_token src s1 token_types.NUMBER (Literal.num (parseFloatQ value_str)))
    else some (lox_error s1 "invalid number format")

/-- Scanner.#scan_token: advance one character and dispatch.  The switch
of the source is rendered as an equality chain over the consumed
character; the fuel only feeds the number machine. -/
def scan_token (src : List Char) (fuel : Nat) (s0 : ScanState) : Option ScanState :=
  let ch := peekCh src s0.current
  let s : ScanState := { s0 with current := s0.current + 1 }
  match ch with
  | none => some (lox_error s unexpected_undefined)
  | some c =>
    if c = '(' then some (add_token src s token_types.LEFT_PAREN Literal.empty)
    else if c = ')' then some (add_token src s token_types.RIGHT_PAREN Literal.empty)
    else if c = Char.ofNat 123 then some (add_token src s token_types.LEFT_BRACE Literal.empty)
    else if c = Char.ofNat 125 then some (add_token src s token_types.RIGHT_BRACE Literal.empty)
    else if c = ',' then some (add_token src s token_types.COMMA Literal.empty)
    else if c = '.' then some (add_token src s token_types.DOT Literal.empty)
    else if c = '-' then some (add_token src s token_types.MINUS Literal.empty)
    else if c = '+' then some (add_token src s token_types.PLUS Literal.empty)
    else if c = ';' then some (add_token src s token_types.SEMICOLON Literal.empty)
    else if c = '*' then some (add_token src s token_types.STAR Literal.empty)
    else if c = '!' then
      let p := matchCh src s '='
      some (add_token src p.2 (if p.1 then token_types.BANG_EQUAL else token_types.BANG)
        Literal.empty)
    else if c = '=' then
      let p := matchCh src s '='
      some (add_token src p.2 (if p.1 then token_types.EQUAL_EQUAL else token_types.EQUAL)
        Literal.empty)
    else if c = '<' then
      let p := matchCh src s '='
      some (add_token src p.2 (if p.1 then token_types.LESS_EQUAL else token_types.LESS)
        Literal.empty)
    else if c = '>' then
      let p := matchCh src s '='
      some (add_token src p.2 (if p.1 then token_types.GREATER_EQUAL else token_types.GREATER)
        Literal.empty)
    else if c = '/' then
      let p := matchCh src s '/'
      some (if p.1 then { p.2 with current := commentLoop src p.2.current } else p.2)
    else if c = '\r' ∨ c = ' ' ∨ c = '\t' then some s
    else if c = '\n' then some { s with line := s.line + 1 }
    else if c = dquote then some (stringScan src s)
    else if is_digit c then numberScan src fuel s
    else some (lox_error s (unexpected_message c))

/-- The scan_tokens while loop under a step budget: while not at end, set
start to current and extract one token.  `none` means the budget ran out
or the number machine diverged. -/
def scanLoopF (src : List Char) : Nat → ScanState → Option ScanState
  | 0, s => if src.length ≤ s.current then some s else none
  | fuel + 1, s =>
    if src.length ≤ s.current then some s
    else
      match scan_token src fuel { s with start := s.current } with
      | none => none
      | some s2 => scanLoopF src fuel s2

/-- Scanner.scan_tokens from a fresh instance: the returned token list,
or `none` when no step budget suffices (the scan diverges). -/
def scan_tokens (src : List Char) (fuel : Nat) : Option (List Token) :=
  (scanLoopF src fuel initState).map ScanState.tokens

/-- Shape facts established by one successful scan_token step from state
s: the start cursor is untouched, the cursor strictly advances by at
least the initial advance and stays within length+1, and every token of
the new state is an old token or is not an EOF token. -/
def StepShape (src : List Char) (s s2 : ScanState) : Prop :=
  s2.start = s.start ∧ s.current < s2.current ∧ s2.current ≤ src.length + 1 ∧
    ∀ t : Token, t ∈ s2.tokens → t ∈ s.tokens ∨ t.token_type ≠ token_types.EOF

/-! ## Basic lemmas about the loops -/

theorem numberLoop_succ (src : List Char) (fuel : Nat) :
    ∀ state current r, numberLoop src fuel state current = some r →
      numberLoop src (fuel + 1) state current = some r := by
  induction fuel with
  | zero =>
    intro state current r h
    unfold numberLoop at h ⊢
    by_cases hg : src.length ≤ current ∨ state = NumState.at_end
    · rw [if_pos hg] at h; rw [if_pos hg]; exact h
    · rw [if_neg hg] at h; exact absurd h (by simp)
  | succ n ih =>
    intro state current r h
    unfold numberLoop at h ⊢
    by_cases hg : src.length ≤ current ∨ state = NumState.at_end
    · rw [if_pos hg] at h ⊢; exact h
    · rw [if_neg hg] at h ⊢; exact ih _ _ _ h

theorem numberLoop_mono (src : List Char) {f g : Nat} (h : f ≤ g) :
    ∀ state current r, numberLoop src f state current = some r →
      numberLoop src g state current = some r := by
  induction g, h using Nat.le_induction with
  | base => exact fun _ _ _ hs => hs
  | succ n hn ih => exact fun st c r hs => numberLoop_succ src n st c r (ih st c r hs)

theorem numberScan_mono (src : List Char) {f g : Nat} (h : f ≤ g) (s : ScanState)
    (r : ScanState) (hs : numberScan src f s = some r) : numberScan src g s = some r := by
  unfold numberScan at hs ⊢
  cases hl : numberLoop src f NumState.before_sign s.current with
  | none => rw [hl] at hs; exact absurd hs (by simp)
  | some p =>
    rw [hl] at hs
    rw [numberLoop_mono src h _ _ _ hl]
    exact hs

set_option maxHeartbeats 1600000 in
theorem scan_token_mono (src : List Char) {f g : Nat} (h : f ≤ g) (s : ScanState)
    (r : ScanState) (hs : scan_token src f s = some r) : scan_token src g s = some r := by
  unfold scan_token at hs ⊢
  dsimp only [] at hs ⊢
  cases hc : peekCh src s.current with
  | none => rw [hc] at hs; exact hs
  | some c =>
    rw [hc] at hs
    dsimp only [] at hs ⊢
    cases hd : is_digit c with
    | false =>
      rw [hd] at hs
      simp only [Bool.false_eq_true, if_false] at hs ⊢
      exact hs
    | true =>
      have hne : ∀ d : Char, is_digit d = false → ¬ c = d := by
        intro d hdf he
        rw [he, hdf] at hd
        exact Bool.noConfusion hd
      have hws : ¬ (c = '\r' ∨ c = ' ' ∨ c = '\t') := by
        rintro (he | he | he)
        · exact hne '\r' (by decide) he
        · exact hne ' ' (by decide) he
        · exact hne '\t' (by decide) he
      rw [if_neg (hne '(' (by decide)), if_neg (hne ')' (by decide)),
        if_neg (hne (Char.ofNat 123) (by decide)), if_neg (hne (Char.ofNat 125) (by decide)),
        if_neg (hne ',' (by decide)), if_neg (hne '.' (by decide)),
        if_neg (hne '-' (by decide)), if_neg (hne '+' (by decide)),
        if_neg (hne ';' (by decide)), if_neg (hne '*' (by decide)),
        if_neg (hne '!' (by decide)), if_neg (hne '=' (by decide)),
        if_neg (hne '<' (by decide)), if_neg (hne '>' (by decide)),
        if_neg (hne '/' (by decide)), if_neg hws, if_neg (hne '\n' (by decide)),
        if_neg (hne dquote (by decide))] at hs ⊢
      rw [if_pos hd] at hs
      rw [if_pos (rfl : (true : Bool) = true)]
      exact numberScan_mono src h _ r hs

theorem scanLoopF_succ (src : List Char) :
    ∀ fuel s r, scanLoopF src fuel s = some r → scanLoopF src (fuel + 1) s = some r := by
  intro fuel
  induction fuel with
  | zero =>
    intro s r h
    unfold scanLoopF at h ⊢
    by_cases hg : src.length ≤ s.current
    · rw [if_pos hg] at h; rw [if_pos hg]; exact h
    · rw [if_neg hg] at h; exact absurd h (by simp)
  | succ n ih =>
    intro s r h
    unfold scanLoopF at h ⊢
    by_cases hg : src.length ≤ s.current
    · rw [if_pos hg] at h ⊢; exact h
    · rw [if_neg hg] at h ⊢
      cases hst : scan_token src n { s with start := s.current } with
      | none => rw [hst] at h; exact absurd h (by simp)
      | some s2 =>
        rw [hst] at h
        rw [scan_token_mono src (Nat.le_succ n) _ _ hst]
        exact ih _ _ h

theorem scanLoopF_mono (src : List Char) {f g : Nat} (h : f ≤ g) (s r : ScanState)
    (hs : scanLoopF src f s = some r) : scanLoopF src g s = some r := by
  induction g, h using Nat.le_induction with
  | base => exact hs
  | succ n hn ih => exact scanLoopF_succ src n s r ih

theorem scan_tokens_mono (src : List Char) {f g : Nat} (h : f ≤ g) (toks : List Token)
    (hs : scan_tokens src f = some toks) : scan_tokens src g = some toks := by
  unfold scan_tokens at hs ⊢
  cases hl : scanLoopF src f initState with
  | none => rw [hl] at hs; exact absurd hs (by simp)
  | some st =>
    rw [hl] at hs
    rw [scanLoopF_mono src h _ _ hl]
    exact hs

/-! ## Bounds of the terminating loops -/

theorem commentLoopGo_ge (src : List Char) :
    ∀ fuel current, current ≤ commentLoopGo src fuel current := by
  intro fuel
  induction fuel with
  | zero => intro c; exact Nat.le_refl c
  | succ n ih =>
    intro c
    unfold commentLoopGo
    split
    · exact Nat.le_trans (Nat.le_succ c) (ih (c + 1))
    · exact Nat.le_refl c

theorem commentLoopGo_le (src : List Char) :
    ∀ fuel current, current ≤ src.length → commentLoopGo src fuel current ≤ src.length := by
  intro fuel
  induction fuel with
  | zero => intro c hc; exact hc
  | succ n ih =>
    intro c hc
    unfold commentLoopGo
    split
    · next hg => exact ih (c + 1) hg.2
    · exact hc

theorem stringLoopGo_ge (src : List Char) :
    ∀ fuel current line, current ≤ (stringLoopGo src fuel current line).1 := by
  intro fuel
  induction fuel with
  | zero => intro c l; exact Nat.le_refl c
  | succ n ih =>
    intro c l
    unfold stringLoopGo
    split
    · exact Nat.le_trans (Nat.le_succ c) (ih (c + 1) _)
    · exact Nat.le_refl c

theorem stringLoopGo_le (src : List Char) :
    ∀ fuel current line, current ≤ src.length →
      (stringLoopGo src fuel current line).1 ≤ src.length := by
  intro fuel
  induction fuel with
  | zero => intro c l hc; exact hc
  | succ n ih =>
    intro c l hc
    unfold stringLoopGo
    split
    · next hg => exact ih (c + 1) _ hg.1
    · exact hc

theorem numberStep_le (src : List Char) (state : NumState) (current : Nat) :
    current ≤ (numberStep src state current).2 ∧
      (numberStep src state current).2 ≤ current + 1 := by
  unfold numberStep
  cases state <;>
    simp only [apply_ite (Prod.snd : NumState × Nat → Nat)] <;>
    (try split_ifs) <;> simp

theorem numberLoop_bounds (src : List Char) :
    ∀ fuel state current state2 current2, current ≤ src.length →
      numberLoop src fuel state current = some (state2, current2) →
      current ≤ current2 ∧ current2 ≤ src.length := by
  intro fuel
  induction fuel with
  | zero =>
    intro st c st2 c2 hc h
    unfold numberLoop at h
    by_cases hg : src.length ≤ c ∨ st = NumState.at_end
    · rw [if_pos hg] at h
      simp only [Option.some.injEq, Prod.mk.injEq] at h
      omega
    · rw [if_neg hg] at h
      exact absurd h (by simp)
  | succ n ih =>
    intro st c st2 c2 hc h
    unfold numberLoop at h
    by_cases hg : src.length ≤ c ∨ st = NumState.at_end
    · rw [if_pos hg] at h
      simp only [Option.some.injEq, Prod.mk.injEq] at h
      omega
    · rw [if_neg hg] at h
      have hcl : c < src.length := by
        rcases Nat.lt_or_ge c src.length with h1 | h1
        · exact h1
        · exact absurd (Or.inl h1) hg
      have hstep := numberStep_le src st c
      have hrec := ih _ _ _ _ (by omega) h
      exact ⟨Nat.le_trans hstep.1 hrec.1, hrec.2⟩

theorem numberLoop_failure (src : List Char) :
    ∀ fuel current, current < src.length →
      numberLoop src fuel NumState.failure current = none := by
  intro fuel
  induction fuel with
  | zero =>
    intro c hc
    unfold numberLoop
    rw [if_neg]
    push_neg
    exact ⟨by omega, by decide⟩
  | succ n ih =>
    intro c hc
    unfold numberLoop
    rw [if_neg]
    · exact ih c hc
    · push_neg
      exact ⟨by omega, by decide⟩

/-! ## Field computations of the primitive operations -/

theorem add_token_fields (src : List Char) (s : ScanState) (ttype : Int) (lit : Literal) :
    (add_token src s ttype lit).tokens = s.tokens ++
        [⟨ttype, String.mk ((src.drop s.start).take (s.current - s.start)), lit, s.line⟩] ∧
      (add_token src s ttype lit).start = s.start ∧
      (add_token src s ttype lit).current = s.current ∧
      (add_token src s ttype lit).line = s.line ∧
      (add_token src s ttype lit).errors = s.errors := by
  unfold add_token
  exact ⟨rfl, rfl, rfl, rfl, rfl⟩

theorem lox_error_fields (s : ScanState) (m : String) :
    (lox_error s m).tokens = s.tokens ∧ (lox_error s m).start = s.start ∧
      (lox_error s m).current = s.current ∧ (lox_error s m).line = s.line ∧
      (lox_error s m).errors = s.errors ++ [(s.line, m)] := by
  unfold lox_error
  exact ⟨rfl, rfl, rfl, rfl, rfl⟩

theorem matchCh_cases (src : List Char) (s : ScanState) (e : Char) :
    matchCh src s e = (false, s) ∨
      (s.current < src.length ∧
        matchCh src s e = (true, { s with current := s.current + 1 })) := by
  unfold matchCh
  split_ifs with hg
  · exact Or.inr ⟨hg.1, rfl⟩
  · exact Or.inl rfl

/-! ## Shape of one scanning step -/

theorem stringScan_shape (src : List Char) (s : ScanState) (h : s.start < s.current) :
    (stringScan src s).tokens = s.tokens ++
        [⟨token_types.STRING,
          String.mk ((src.drop s.start).take ((stringLoop src s.current s.line).1 + 1 - s.start)),
          Literal.str (String.mk ((src.drop (s.start + 1)).take
            ((stringLoop src s.current s.line).1 - (s.start + 1)))),
          (stringLoop src s.current s.line).2⟩] ∧
      (stringScan src s).errors = s.errors ∧
      (stringScan src s).start = s.start ∧
      (stringScan src s).current = (stringLoop src s.current s.line).1 + 1 := by
  have hge : s.current ≤ (stringLoop src s.current s.line).1 := stringLoopGo_ge src _ _ _
  unfold stringScan
  dsimp only []
  rw [if_pos (by omega : s.start < (stringLoop src s.current s.line).1)]
  unfold add_token
  exact ⟨rfl, rfl, rfl, rfl⟩

theorem numberScan_shape (src : List Char) (fuel : Nat) (s s2 : ScanState)
    (hcur : s.current ≤ src.length) (h : numberScan src fuel s = some s2) :
    s2.start = s.start ∧ s.current ≤ s2.current ∧ s2.current ≤ src.length ∧
      (s2.tokens = s.tokens ∨ ∃ t : Token, s2.tokens = s.tokens ++ [t] ∧
        t.token_type = token_types.NUMBER) := by
  unfold numberScan at h
  cases hl : numberLoop src fuel NumState.before_sign s.current with
  | none => rw [hl] at h; exact absurd h (by simp)
  | some p =>
    obtain ⟨st, cur⟩ := p
    rw [hl] at h
    have hb := numberLoop_bounds src fuel NumState.before_sign s.current st cur hcur hl
    dsimp only [] at h
    by_cases hst : st = NumState.at_end
    · rw [if_pos hst] at h
      obtain rfl := Option.some.inj h
      unfold add_token
      exact ⟨rfl, hb.1, hb.2, Or.inr ⟨_, rfl, rfl⟩⟩
    · rw [if_neg hst] at h
      obtain rfl := Option.some.inj h
      unfold lox_error
      exact ⟨rfl, hb.1, hb.2, Or.inl rfl⟩

theorem stepShape_state (src : List Char) (s s2 : ScanState)
    (hstart : s2.start = s.start) (hcur : s2.current = s.current + 1)
    (htoks : s2.tokens = s.tokens) (h2 : s.current ≤ src.length) :
    StepShape src s s2 := by
  unfold StepShape
  refine ⟨hstart, by omega, by omega, ?_⟩
  intro t ht
  rw [htoks] at ht
  exact Or.inl ht

theorem stepShape_add_one (src : List Char) (s : ScanState) (ty : Int) (lit : Literal)
    (hty : ty ≠ token_types.EOF) (h2 : s.current ≤ src.length) :
    StepShape src s (add_token src { s with current := s.current + 1 } ty lit) := by
  unfold StepShape add_token
  dsimp only []
  refine ⟨rfl, by omega, by omega, ?_⟩
  intro t ht
  rcases List.mem_append.mp ht with hm | hm
  · exact Or.inl hm
  · rcases List.mem_singleton.mp hm with rfl
    exact Or.inr hty

theorem stepShape_add_match (src : List Char) (s : ScanState) (e : Char) (ty1 ty2 : Int)
    (lit : Literal) (hty1 : ty1 ≠ token_types.EOF) (hty2 : ty2 ≠ token_types.EOF)
    (h2 : s.current ≤ src.length) :
    StepShape src s
      (add_token src (matchCh src { s with current := s.current + 1 } e).2
        (if (matchCh src { s with current := s.current + 1 } e).1 then ty1 else ty2) lit) := by
  rcases matchCh_cases src { s with current := s.current + 1 } e with hm | ⟨hlt, hm⟩
  · rw [hm]
    unfold StepShape add_token
    dsimp only []
    simp only [Bool.false_eq_true, if_false]
    refine ⟨by trivial, by omega, by omega, ?_⟩
    intro t ht
    rcases List.mem_append.mp ht with hmem | hmem
    · exact Or.inl hmem
    · rcases List.mem_singleton.mp hmem with rfl
      exact Or.inr hty2
  · rw [hm]
    dsimp only [] at hlt
    unfold StepShape add_token
    dsimp only []
    simp only [eq_self_iff_true, if_true]
    refine ⟨by trivial, by omega, by omega, ?_⟩
    intro t ht
    rcases List.mem_append.mp ht with hmem | hmem
    · exact Or.inl hmem
    · rcases List.mem_singleton.mp hmem with rfl
      exact Or.inr hty1

theorem stepShape_slash (src : List Char) (s : ScanState) (h2 : s.current ≤ src.length) :
    StepShape src s
      (if (matchCh src { s with current := s.current + 1 } '/').1 then
        { (matchCh src { s with current := s.current + 1 } '/').2 with
            current := commentLoop src (matchCh src { s with current := s.current + 1 } '/').2.current }
      else (matchCh src { s with current := s.current + 1 } '/').2) := by
  rcases matchCh_cases src { s with current := s.current + 1 } '/' with hm | ⟨hlt, hm⟩
  · rw [hm]
    dsimp only []
    simp only [Bool.false_eq_true, if_false]
    exact stepShape_state src s _ rfl rfl rfl h2
  · rw [hm]
    dsimp only [] at hlt ⊢
    simp only [eq_self_iff_true, if_true]
    have hge := commentLoopGo_ge src (src.length - (s.current + 1 + 1)) (s.current + 1 + 1)
    have hle := commentLoopGo_le src (src.length - (s.current + 1 + 1)) (s.current + 1 + 1)
      (by omega)
    unfold StepShape commentLoop
    dsimp only []
    exact ⟨rfl, by omega, by omega, fun t ht => Or.inl ht⟩

theorem stepShape_string (src : List Char) (s : ScanState)
    (h1 : s.start ≤ s.current) (h2 : s.current + 1 ≤ src.length) :
    StepShape src s (stringScan src { s with current := s.current + 1 }) := by
  obtain ⟨htok, herr, hstart, hcur⟩ :=
    stringScan_shape src { s with current := s.current + 1 } (by dsimp only []; omega)
  dsimp only [] at htok herr hstart hcur
  unfold stringLoop at hcur
  have hge := stringLoopGo_ge src (src.length - (s.current + 1)) (s.current + 1) s.line
  have hle := stringLoopGo_le src (src.length - (s.current + 1)) (s.current + 1) s.line h2
  unfold StepShape
  refine ⟨hstart, by omega, by omega, ?_⟩
  intro t ht
  rw [htok] at ht
  rcases List.mem_append.mp ht with hmem | hmem
  · exact Or.inl hmem
  · rcases List.mem_singleton.mp hmem with rfl
    exact Or.inr (by dsimp only []; decide)

theorem stepShape_number (src : List Char) (fuel : Nat) (s s2 : ScanState)
    (h2 : s.current + 1 ≤ src.length)
    (h : numberScan src fuel { s with current := s.current + 1 } = some s2) :
    StepShape src s s2 := by
  obtain ⟨hstart, hge, hle, htoks⟩ :=
    numberScan_shape src fuel _ s2 (by dsimp only []; omega) h
  dsimp only [] at hstart hge hle htoks
  unfold StepShape
  refine ⟨hstart, by omega, by omega, ?_⟩
  intro t ht
  rcases htoks with he | ⟨tok, he, hty⟩
  · rw [he] at ht; exact Or.inl ht
  · rw [he] at ht
    rcases List.mem_append.mp ht with hm | hm
    · exact Or.inl hm
    · rcases List.mem_singleton.mp hm with rfl
      exact Or.inr (by rw [hty]; decide)

theorem scan_token_shape (src : List Char) (fuel : Nat) (s s2 : ScanState)
    (h1 : s.start ≤ s.current) (h2 : s.current ≤ src.length)
    (h : scan_token src fuel s = some s2) : StepShape src s s2 := by
  unfold scan_token at h
  dsimp only [] at h
  cases hc : peekCh src s.current with
  | none =>
    rw [hc] at h
    obtain rfl := Option.some.inj h
    exact stepShape_state src s _ rfl rfl rfl h2
  | some c =>
    rw [hc] at h
    dsimp only [] at h
    have hlt : s.current < src.length := by
      by_contra hge
      have hnone : peekCh src s.current = none := by
        unfold peekCh
        exact List.get?_len_le (by omega)
      rw [hnone] at hc
      cases hc
    by_cases e1 : c = '('
    · rw [if_pos e1] at h
      obtain rfl := Option.some.inj h
      exact stepShape_add_one src s _ _ (by decide) h2
    rw [if_neg e1] at h
    by_cases e2 : c = ')'
    · rw [if_pos e2] at h
      obtain rfl := Option.some.inj h
      exact stepShape_add_one src s _ _ (by decide) h2
    rw [if_neg e2] at h
    by_cases e3 : c = Char.ofNat 123
    · rw [if_pos e3] at h
      obtain rfl := Option.some.inj h
      exact stepShape_add_one src s _ _ (by decide) h2
    rw [if_neg e3] at h
    by_cases e4 : c = Char.ofNat 125
    · rw [if_pos e4] at h
      obtain rfl := Option.some.inj h
      exact stepShape_add_one src s _ _ (by decide) h2
    rw [if_neg e4] at h
    by_cases e5 : c = ','
    · rw [if_pos e5] at h
      obtain rfl := Option.some.inj h
      exact stepShape_add_one src s _ _ (by decide) h2
    rw [if_neg e5] at h
    by_cases e6 : c = '.'
    · rw [if_pos e6] at h
      obtain rfl := Option.some.inj h
      exact stepShape_add_one src s _ _ (by decide) h2
    rw [if_neg e6] at h
    by_cases e7 : c = '-'
    · rw [if_pos e7] at h
      obtain rfl := Option.some.inj h
      exact stepShape_add_one src s _ _ (by decide) h2
    rw [if_neg e7] at h
    by_cases e8 : c = '+'
    · rw [if_pos e8] at h
      obtain rfl := Option.some.inj h
      exact stepShape_add_one src s _ _ (by decide) h2
    rw [if_neg e8] at h
    by_cases e9 : c = ';'
    · rw [if_pos e9] at h
      obtain rfl := Option.some.inj h
      exact stepShape_add_one src s _ _ (by decide) h2
    rw [if_neg e9] at h
    by_cases e10 : c = '*'
    · rw [if_pos e10] at h
      obtain rfl := Option.some.inj h
      exact stepShape_add_one src s _ _ (by decide) h2
    rw [if_neg e10] at h
    by_cases e11 : c = '!'
    · rw [if_pos e11] at h
      obtain rfl := Option.some.inj h
      exact stepShape_add_match src s '=' _ _ _ (by decide) (by decide) h2
    rw [if_neg e11] at h
    by_cases e12 : c = '='
    · rw [if_pos e12] at h
      obtain rfl := Option.some.inj h
      exact stepShape_add_match src s '=' _ _ _ (by decide) (by decide) h2
    rw [if_neg e12] at h
    by_cases e13 : c = '<'
    · rw [if_pos e13] at h
      obtain rfl := Option.some.inj h
      exact stepShape_add_match src s '=' _ _ _ (by decide) (by decide) h2
    rw [if_neg e13] at h
    by_cases e14 : c = '>'
    · rw [if_pos e14] at h
      obtain rfl := Option.some.inj h
      exact stepShape_add_match src s '=' _ _ _ (by decide) (by decide) h2
    rw [if_neg e14] at h
    by_cases e15 : c = '/'
    · rw [if_pos e15] at h
      obtain rfl := Option.some.inj h
      exact stepShape_slash src s h2
    rw [if_neg e15] at h
    by_cases e16 : c = '\r' ∨ c = ' ' ∨ c = '\t'
    · rw [if_pos e16] at h
      obtain rfl := Option.some.inj h
      exact stepShape_state src s _ rfl rfl rfl h2
    rw [if_neg e16] at h
    by_cases e17 : c = '\n'
    · rw [if_pos e17] at h
      obtain rfl := Option.some.inj h
      exact stepShape_state src s _ rfl rfl rfl h2
    rw [if_neg e17] at h
    by_cases e18 : c = dquote
    · rw [if_pos e18] at h
      obtain rfl := Option.some.inj h
      exact stepShape_string src s h1 (by omega)
    rw [if_neg e18] at h
    by_cases e19 : is_digit c = true
    · rw [if_pos e19] at h
      exact stepShape_number src fuel s s2 (by omega) h
    rw [if_neg e19] at h
    obtain rfl := Option.some.inj h
    exact stepShape_state src s _ rfl rfl rfl h2

theorem scanLoopF_no_eof (src : List Char) :
    ∀ fuel s s2, s.start ≤ s.current →
      (∀ t : Token, t ∈ s.tokens → t.token_type ≠ token_types.EOF) →
      scanLoopF src fuel s = some s2 →
      ∀ t : Token, t ∈ s2.tokens → t.token_type ≠ token_types.EOF := by
  intro fuel
  induction fuel with
  | zero =>
    intro s s2 hsc hinv h
    unfold scanLoopF at h
    by_cases hg : src.length ≤ s.current
    · rw [if_pos hg] at h
      obtain rfl := Option.some.inj h
      exact hinv
    · rw [if_neg hg] at h
      exact absurd h (by simp)
  | succ n ih =>
    intro s s2 hsc hinv h
    unfold scanLoopF at h
    by_cases hg : src.length ≤ s.current
    · rw [if_pos hg] at h
      obtain rfl := Option.some.inj h
      exact hinv
    · rw [if_neg hg] at h
      cases hst : scan_token src n { s with start := s.current } with
      | none => rw [hst] at h; exact absurd h (by simp)
      | some sm =>
        rw [hst] at h
        obtain ⟨hstart, hcur, hbound, htoks⟩ :=
          scan_token_shape src n { s with start := s.current } sm
            (Nat.le_refl _) (by dsimp only []; omega) hst
        dsimp only [] at hstart hcur htoks
        refine ih sm s2 ?_ ?_ h
        · rw [hstart]; omega
        · intro t ht
          rcases htoks t ht with hmem | hne
          · exact hinv t hmem
          · exact hne

/-! ## Claim theorems -/

/-- Claim C1: the claim says the number finite-state machine loop always
exits (in END, in FAILURE, or by exhausting input) and that malformed
input never stops the scan.  The code refutes this: on the source "7a"
the machine enters the failure state with the cursor not at end, the loop
guard only tests the END state and the body has no branch for the failure
state, so the loop spins forever and scan_tokens never returns - no step
budget suffices. -/
theorem C1_number_fsm_diverges : ∀ fuel : Nat, scan_tokens (String.toList "7a") fuel = none := by
  have h7a : ∀ n : Nat, numberLoop (String.toList "7a") n NumState.before_sign 1 = none := by
    intro n
    cases n with
    | zero => rfl
    | succ m =>
      have hstep : numberLoop (String.toList "7a") (m + 1) NumState.before_sign 1
          = numberLoop (String.toList "7a") m NumState.failure 1 := rfl
      rw [hstep]
      exact numberLoop_failure _ m 1 (by decide)
  intro fuel
  cases fuel with
  | zero => rfl
  | succ n =>
    have h3 : numberScan (String.toList "7a") n ⟨[], 0, 1, 1, []⟩ = none := by
      unfold numberScan
      rw [show (⟨[], 0, 1, 1, []⟩ : ScanState).current = 1 from rfl, h7a n]
    show (scanLoopF (String.toList "7a") (n + 1) initState).map ScanState.tokens = none
    have h2 : scanLoopF (String.toList "7a") (n + 1) initState
        = match numberScan (String.toList "7a") n ⟨[], 0, 1, 1, []⟩ with
          | none => none
          | some s2 => scanLoopF (String.toList "7a") n s2 := rfl
    rw [h2, h3]
    rfl

/-- Claim C2, counterexample: the claim says the empty-quotes source
yields an unterminated-string report and no STRING token.  The code
emits a STRING token with empty literal and reports nothing, because the
termination check current > start always holds (current is at least
start+1 when the check runs). -/
theorem C2_counterexample :
    scanLoopF (String.toList "\"\"") 5 initState
      = some ⟨[⟨token_types.STRING, "\"\"", Literal.str "", 1⟩], 0, 2, 1, []⟩ := by decide

/-- Claim C2, amended: every string scan entered with the opening quote
consumed (so start < current) takes the success branch: it emits exactly
one STRING token and raises no report; the "unterminated string." branch
is unreachable, for terminated and unterminated literals alike. -/
theorem C2_unterminated_report_unreachable (src : List Char) (s : ScanState)
    (h : s.start < s.current) :
    ∃ t : Token, (stringScan src s).tokens = s.tokens ++ [t] ∧
      t.token_type = token_types.STRING ∧ (stringScan src s).errors = s.errors := by
  obtain ⟨htok, herr, hstart, hcur⟩ := stringScan_shape src s h
  exact ⟨_, htok, rfl, herr⟩

/-- Claim C2, witness: the amended theorem applied to the scan of the
terminated literal source after its opening quote was consumed. -/
theorem C2_witness :
    ∃ t : Token, (stringScan (String.toList "\"a\"") ⟨[], 0, 1, 1, []⟩).tokens = [] ++ [t] ∧
      t.token_type = token_types.STRING ∧
      (stringScan (String.toList "\"a\"") ⟨[], 0, 1, 1, []⟩).errors = [] :=
  C2_unterminated_report_unreachable (String.toList "\"a\"") ⟨[], 0, 1, 1, []⟩ (by decide)

/-- Claim C3, counterexample: the claim says scanning "if x" yields an IF
keyword token followed by an IDENTIFIER token.  The scanner has no
identifier path at all: the token list is empty. -/
theorem C3_counterexample : scan_tokens (String.toList "if x") 10 = some [] := by decide

/-- Claim C3, amended: scanning "if x" yields no tokens; each alphabetic
character falls into the default branch of the dispatch (which only
recognizes digits) and raises an Unexpected-character report, so the scan
ends with three reports and an empty token list. -/
theorem C3_no_identifier_tokens :
    scanLoopF (String.toList "if x") 10 initState
      = some ⟨[], 3, 4, 1,
          [(1, unexpected_message 'i'), (1, unexpected_message 'f'),
            (1, unexpected_message 'x')]⟩ := by decide

/-- Claim C4, counterexample: the claim says the token kind enumeration
has exactly the 38 kinds of the specification and no SLASH kind.  The
frozen token_types object has 41 entries and contains SLASH bound to 9. -/
theorem C4_counterexample :
    (("SLASH", (9 : Int)) ∈ token_types_entries) ∧ token_types_entries.length = 41 := by
  decide

/-- Claim C4, amended: the token kind enumeration consists of the 38
specified kinds plus UNKNOWN, SLASH and DOUBLE_EQUAL, 41 members in this
source order; in particular a SLASH kind does exist (value 9) even though
the scanner never emits it, and EQUAL_EQUAL is a separate member from
DOUBLE_EQUAL. -/
theorem C4_enumeration_members :
    token_types_entries.map Prod.fst =
      ["UNKNOWN", "LEFT_PAREN", "RIGHT_PAREN", "LEFT_BRACE", "RIGHT_BRACE", "COMMA", "DOT",
        "MINUS", "PLUS", "SEMICOLON", "SLASH", "STAR", "BANG", "BANG_EQUAL", "EQUAL",
        "DOUBLE_EQUAL", "GREATER", "GREATER_EQUAL", "LESS", "LESS_EQUAL", "IDENTIFIER",
        "STRING", "NUMBER", "EQUAL_EQUAL", "AND", "CLASS", "ELSE", "FALSE", "FUN", "FOR",
        "IF", "NIL", "OR", "PRINT", "RETURN", "SUPER", "THIS", "TRUE", "VAR", "WHILE",
        "EOF"] := by
  rfl

/-- Claim C5, counterexample: the claim says the cursor never moves past
the end of the source.  Scanning the unterminated string source of length
3 ends with current = 4: the final advance of the string scanner steps
past the absent closing quote. -/
theorem C5_counterexample :
    scanLoopF (String.toList "\"ab") 5 initState
        = some ⟨[⟨token_types.STRING, "\"ab", Literal.str "ab", 1⟩], 0, 4, 1, []⟩ ∧
      (String.toList "\"ab").length = 3 := by decide

/-- Claim C5, amended: from any state with start ≤ current ≤ length, one
scan_token step preserves start ≤ current and keeps the cursor within
length + 1 (not length: the string scanner may advance once past the end
when the closing quote is missing, as the counterexample shows). -/
theorem C5_cursor_bounds (src : List Char) (fuel : Nat) (s s2 : ScanState)
    (h1 : s.start ≤ s.current) (h2 : s.current ≤ src.length)
    (h : scan_token src fuel s = some s2) :
    s2.start ≤ s2.current ∧ s2.current ≤ src.length + 1 := by
  obtain ⟨hstart, hcur, hbound, htoks⟩ := scan_token_shape src fuel s s2 h1 h2 h
  exact ⟨by omega, hbound⟩

/-- Claim C5, witness: the amended bound evaluated on one step over the
single-character source. -/
theorem C5_witness :
    (⟨[⟨token_types.PLUS, "+", Literal.empty, 1⟩], 0, 1, 1, []⟩ : ScanState).start ≤
        (⟨[⟨token_types.PLUS, "+", Literal.empty, 1⟩], 0, 1, 1, []⟩ : ScanState).current ∧
      (⟨[⟨token_types.PLUS, "+", Literal.empty, 1⟩], 0, 1, 1, []⟩ : ScanState).current ≤
        (String.toList "+").length + 1 :=
  C5_cursor_bounds (String.toList "+") 1 initState
    ⟨[⟨token_types.PLUS, "+", Literal.empty, 1⟩], 0, 1, 1, []⟩
    (by decide) (by decide) (by decide)

/-- Claim C6, counterexample: the claim says every consuming transition,
including the sign transition out of BEFORE_SIGN, forces END when it
reaches end of input.  On "1+" the sign transition consumes the final
character and leaves the state at BEFORE_DECIMAL, so the scan reports an
invalid number format instead of emitting a NUMBER token. -/
theorem C6_counterexample :
    numberStep (String.toList "1+") NumState.before_sign 1
        = (NumState.before_decimal, 2) ∧
      (String.toList "1+").length = 2 ∧
      NumState.before_decimal ≠ NumState.at_end ∧
      scanLoopF (String.toList "1+") 5 initState
        = some ⟨[], 0, 2, 1, [(1, "invalid number format")]⟩ := by decide

/-- Claim C6, amended: every consuming transition of the machine except
the sign transition out of BEFORE_SIGN is forced to END when it leaves
the cursor at end of input; that one transition lacks the short-circuit
check in the source. -/
theorem C6_short_circuit_except_sign (src : List Char) (state : NumState) (current : Nat)
    (hconsumed : (numberStep src state current).2 = current + 1)
    (hend : src.length ≤ (numberStep src state current).2)
    (hnotsign : ¬ (state = NumState.before_sign ∧
      (peekCh src current = some '+' ∨ peekCh src current = some '-'))) :
    (numberStep src state current).1 = NumState.at_end := by
  cases state with
  | before_sign =>
    by_cases hsgn : peekCh src current = some '+' ∨ peekCh src current = some '-'
    · exact absurd ⟨rfl, hsgn⟩ hnotsign
    unfold numberStep at hconsumed hend ⊢
    dsimp only [] at hconsumed hend ⊢
    rw [if_neg hsgn] at hconsumed hend ⊢
    by_cases hdig : is_digit_opt (peekCh src current) = true
    · rw [if_pos hdig] at hend ⊢
      dsimp only [] at hend ⊢
      rw [if_pos hend]
    rw [if_neg hdig] at hconsumed hend ⊢
    by_cases hdot : peekCh src current = some '.'
    · rw [if_pos hdot] at hend ⊢
      dsimp only [] at hend ⊢
      rw [if_pos hend]
    rw [if_neg hdot] at hconsumed
    dsimp only [] at hconsumed
    omega
  | before_decimal =>
    unfold numberStep at hconsumed hend ⊢
    dsimp only [] at hconsumed hend ⊢
    by_cases hdig : is_digit_opt (peekCh src current) = true
    · rw [if_pos hdig] at hend ⊢
      dsimp only [] at hend ⊢
      rw [if_pos hend]
    rw [if_neg hdig] at hconsumed hend ⊢
    by_cases hdot : peekCh src current = some '.'
    · rw [if_pos hdot] at hend ⊢
      dsimp only [] at hend ⊢
      rw [if_pos hend]
    rw [if_neg hdot]
  | after_decimal =>
    unfold numberStep at hconsumed hend ⊢
    dsimp only [] at hconsumed hend ⊢
    by_cases hdig : is_digit_opt (peekCh src current) = true
    · rw [if_pos hdig] at hend ⊢
      dsimp only [] at hend ⊢
      rw [if_pos hend]
    rw [if_neg hdig] at hconsumed hend ⊢
    by_cases hexp : peekCh src current = some 'e' ∨ peekCh src current = some 'E'
    · rw [if_pos hexp] at hend ⊢
      dsimp only [] at hend ⊢
      rw [if_pos hend]
    rw [if_neg hexp]
  | before_exp_sign =>
    unfold numberStep at hconsumed hend ⊢
    dsimp only [] at hconsumed hend ⊢
    by_cases hs2 : (peekCh src current = some '-' ∨ peekCh src current = some '+') ∨
        is_digit_opt (peekCh src current) = true
    · rw [if_pos hs2] at hend ⊢
      dsimp only [] at hend ⊢
      rw [if_pos hend]
    rw [if_neg hs2]
  | in_exp =>
    unfold numberStep at hconsumed hend ⊢
    dsimp only [] at hconsumed hend ⊢
    by_cases hdig : is_digit_opt (peekCh src current) = true
    · rw [if_pos hdig] at hend ⊢
      dsimp only [] at hend ⊢
      rw [if_pos hend]
    rw [if_neg hdig]
  | at_end => rfl
  | failure =>
    exfalso
    have hcur : (numberStep src NumState.failure current).2 = current := rfl
    omega

/-- Claim C6, witness: a digit consumed at the very end of the source by
the BEFORE_DECIMAL state is forced to END. -/
theorem C6_witness :
    (numberStep (String.toList "12") NumState.before_decimal 1).1 = NumState.at_end :=
  C6_short_circuit_except_sign (String.toList "12") NumState.before_decimal 1
    (by decide) (by decide) (by decide)

/-- Claim C7: scanning "1.5e-3" yields exactly one NUMBER token whose
literal value is 0.0015, for every sufficient step budget. -/
theorem C7_number_literal (fuel : Nat) (h : 10 ≤ fuel) :
    scan_tokens (String.toList "1.5e-3") fuel
      = some [⟨token_types.NUMBER, "1.5e-3", Literal.num (some (0.0015 : ℚ)), 1⟩] := by
  have hv : parseFloatQ "1.5e-3" = some (0.0015 : ℚ) := by
    have hq : parseFloatQ "1.5e-3"
        = some ((1 : ℚ) * (((digitsVal ['1'] : ℚ) + (digitsVal ['5'] : ℚ) / (10 : ℚ) ^ (1 : ℕ))
            / (10 : ℚ) ^ digitsVal ['3'])) := rfl
    have h2 : digitsVal ['1'] = 1 := by decide
    have h3 : digitsVal ['5'] = 5 := by decide
    have h4 : digitsVal ['3'] = 3 := by decide
    rw [hq, h2, h3, h4]
    norm_num
  have hbase : scan_tokens (String.toList "1.5e-3") 10
      = some [⟨token_types.NUMBER, "1.5e-3", Literal.num (parseFloatQ "1.5e-3"), 1⟩] := rfl
  rw [hv] at hbase
  exact scan_tokens_mono (String.toList "1.5e-3") h _ hbase

/-- Claim C7, witness: the scan evaluated at the step budget 10. -/
theorem C7_witness :
    scan_tokens (String.toList "1.5e-3") 10
      = some [⟨token_types.NUMBER, "1.5e-3", Literal.num (some (0.0015 : ℚ)), 1⟩] :=
  C7_number_literal 10 (by decide)

/-- Claim C8: a string literal with an embedded newline yields exactly one
STRING token whose literal keeps the newline and whose recorded line is
the terminating line (starting line 1 plus one embedded newline). -/
theorem C8_multiline_string (fuel : Nat) (h : 2 ≤ fuel) :
    scan_tokens (String.toList "\"hello\nworld\"") fuel
      = some [⟨token_types.STRING, "\"hello\nworld\"", Literal.str "hello\nworld", 2⟩] := by
  have hbase : scan_tokens (String.toList "\"hello\nworld\"") 2
      = some [⟨token_types.STRING, "\"hello\nworld\"", Literal.str "hello\nworld", 2⟩] := by
    decide
  exact scan_tokens_mono (String.toList "\"hello\nworld\"") h _ hbase

/-- Claim C8, witness: the scan evaluated at the step budget 2. -/
theorem C8_witness :
    scan_tokens (String.toList "\"hello\nworld\"") 2
      = some [⟨token_types.STRING, "\"hello\nworld\"", Literal.str "hello\nworld", 2⟩] :=
  C8_multiline_string 2 (by decide)

/-- Claim C9: whenever the number scanner is entered with the cursor
already at end of input (the consumed first digit was the final source
character), the loop body never runs, the state stays BEFORE_SIGN, and the
scan reports an invalid number format and emits nothing. -/
theorem C9_last_char_digit (src : List Char) (fuel : Nat) (s : ScanState)
    (h : src.length ≤ s.current) :
    numberScan src fuel s = some (lox_error s "invalid number format") := by
  unfold numberScan
  have hl : numberLoop src fuel NumState.before_sign s.current
      = some (NumState.before_sign, s.current) := by
    cases fuel <;> unfold numberLoop <;> rw [if_pos (Or.inl h)]
  rw [hl]
  dsimp only []
  rw [if_neg (by decide : ¬ NumState.before_sign = NumState.at_end)]

/-- Claim C9, witness: the one-character source with a single digit,
entered with the digit consumed. -/
theorem C9_witness :
    numberScan (String.toList "7") 3 ⟨[], 0, 1, 1, []⟩
      = some (lox_error ⟨[], 0, 1, 1, []⟩ "invalid number format") :=
  C9_last_char_digit (String.toList "7") 3 ⟨[], 0, 1, 1, []⟩ (by decide)

/-- Claim C10: the token sequence returned by scan_tokens never contains a
token of the EOF kind: no end-of-input marker is ever appended. -/
theorem C10_no_eof_token (src : List Char) (fuel : Nat) (toks : List Token)
    (h : scan_tokens src fuel = some toks) :
    ∀ t : Token, t ∈ toks → t.token_type ≠ token_types.EOF := by
  unfold scan_tokens at h
  cases hl : scanLoopF src fuel initState with
  | none => rw [hl] at h; exact absurd h (by simp)
  | some st =>
    rw [hl] at h
    dsimp only [Option.map] at h
    obtain rfl := Option.some.inj h
    exact scanLoopF_no_eof src fuel initState st (Nat.le_refl 0)
      (by intro t ht; exact absurd ht (List.not_mem_nil t)) hl

/-- Claim C10, witness: the theorem applied to the scan of a parenthesis
and the single token it produces. -/
theorem C10_witness :
    (⟨token_types.LEFT_PAREN, "(", Literal.empty, 1⟩ : Token).token_type
      ≠ token_types.EOF :=
  C10_no_eof_token (String.toList "(") 2 [⟨token_types.LEFT_PAREN, "(", Literal.empty, 1⟩]
    (by decide) ⟨token_types.LEFT_PAREN, "(", Literal.empty, 1⟩
    (List.mem_singleton.mpr rfl)

end Lox
